import Mathlib

/-!
Verification of the CuppaChat room connection manager (`src/app.py`).

The Python core is shallowly embedded: the `ConnectionManager` state
(`self.rooms : Dict[str, List[Client]]`) becomes an insertion-ordered
association list from room names to client lists, and every coroutine
(`connect`, `disconnect`, `broadcast`, `broadcast_userlist`, and one
iteration of the `ws_endpoint` read loop) becomes a pure function that
returns the updated registry together with the list of successful
deliveries `(recipient, event)` performed during the call, in send order.

Send failure (the `except Exception` branch around `c.ws.send_json`) is
modelled by a predicate `fails : Nat → Bool` on channel handles: a send
to client `c` raises iff `fails c.ws = true`.  Server timestamps
(`datetime.utcnow().isoformat()`) are modelled by an explicit `t : Nat`
argument supplied per operation.
-/

namespace CuppaChat

/-- `Client` from `src/app.py`: a username plus the WebSocket channel.
The channel (`self.ws`) is an opaque handle; the code compares channels
with `is` (object identity), which we model by a `Nat` handle, distinct
handles for distinct sockets. -/
structure Client where
  username : String
  ws : Nat
deriving DecidableEq, Repr

/-- The registry `self.rooms : Dict[str, List[Client]]`, as an
insertion-ordered association list (Python dicts preserve insertion
order; updates keep the key's position, `pop` deletes it). -/
abbrev Registry := List (String × List Client)

/-- Outbound events, the JSON objects built by `src/app.py` before
`send_json`.  `time` carries the server timestamp; `userlist` has none
in the code.  The `file` payload fields are `Option String` because the
endpoint forwards `data.get(...)`, which yields `None` for absent keys. -/
inductive OutEvent where
  | system (message : String) (time : Nat)
  | chat (username message : String) (time : Nat)
  | file (username : String) (url filename mimetype : Option String) (time : Nat)
  | userlist (users : List String)
deriving DecidableEq, Repr

/-- Dict lookup `self.rooms.get(room)` (first matching key). -/
def lookupRoom : Registry → String → Option (List Client)
  | [], _ => none
  | (k, v) :: rest, room => if k = room then some v else lookupRoom rest room

/-- Dict write `self.rooms[room] = v`: replace in place if the key is
present, else append (Python dicts append new keys at the end). -/
def setRoom : Registry → String → List Client → Registry
  | [], room, v => [(room, v)]
  | (k, w) :: rest, room, v =>
      if k = room then (room, v) :: rest else (k, w) :: setRoom rest room v

/-- Dict removal `self.rooms.pop(room, None)`: delete the key if
present, no-op otherwise. -/
def popRoom : Registry → String → Registry
  | [], _ => []
  | (k, w) :: rest, room => if k = room then rest else (k, w) :: popRoom rest room

/-- `ConnectionManager._get_clients`: `self.rooms.get(room, [])`. -/
def getClients (rooms : Registry) (room : String) : List Client :=
  (lookupRoom rooms room).getD []

/-- `ConnectionManager._get_usernames`:
`[c.username for c in self._get_clients(room)]`. -/
def getUsernames (rooms : Registry) (room : String) : List String :=
  (getClients rooms room).map Client.username

/-- `ConnectionManager.broadcast`.  Sends `msg` to each client of the
room in order; a client whose send raises (`fails c.ws`) is collected in
`dead` and receives nothing.  Afterwards, only when `dead` is non-empty,
the room entry is overwritten with the survivors — note the code never
pops the entry here, even when no survivor remains.  Returns the new
registry and the successful deliveries in order. -/
def broadcast (rooms : Registry) (room : String) (msg : OutEvent)
    (fails : Nat → Bool) : Registry × List (Client × OutEvent) :=
  let clients := getClients rooms room
  let dead := clients.filter (fun c => fails c.ws)
  let sent := (clients.filter (fun c => !fails c.ws)).map (fun c => (c, msg))
  let rooms' :=
    if dead.isEmpty then rooms
    else setRoom rooms room (clients.filter (fun c => !dead.contains c))
  (rooms', sent)

/-- `ConnectionManager.broadcast_userlist`: snapshots the usernames,
then broadcasts a `userlist` event carrying them. -/
def broadcast_userlist (rooms : Registry) (room : String)
    (fails : Nat → Bool) : Registry × List (Client × OutEvent) :=
  let users := getUsernames rooms room
  broadcast rooms room (.userlist users) fails

/-- `ConnectionManager.connect` (after `ws.accept()`):
`setdefault(room, [])` then `append` inserts the new client at the end
of the room's list (creating the room if absent), then the roster and
the "bergabung ke grup" system notice are broadcast. -/
def connect (rooms : Registry) (room username : String) (ws : Nat)
    (t : Nat) (fails : Nat → Bool) : Registry × List (Client × OutEvent) :=
  let rooms1 := setRoom rooms room (getClients rooms room ++ [⟨username, ws⟩])
  let b1 := broadcast_userlist rooms1 room fails
  let b2 := broadcast b1.1 room (.system (username ++ " bergabung ke grup") t) fails
  (b2.1, b1.2 ++ b2.2)

/-- `ConnectionManager.disconnect`: filters the room's list by channel
identity (`c.ws is not ws`); if the result is non-empty it is written
back, otherwise the room entry is popped.  Then — unconditionally — the
"keluar dari grup" system notice and the updated roster are broadcast. -/
def disconnect (rooms : Registry) (room username : String) (ws : Nat)
    (t : Nat) (fails : Nat → Bool) : Registry × List (Client × OutEvent) :=
  let clients := (getClients rooms room).filter (fun c => c.ws ≠ ws)
  let rooms1 := if clients.isEmpty then popRoom rooms room
                else setRoom rooms room clients
  let b1 := broadcast rooms1 room (.system (username ++ " keluar dari grup") t) fails
  let b2 := broadcast_userlist b1.1 room fails
  (b2.1, b1.2 ++ b2.2)

/-- One inbound item of the `ws_endpoint` read loop, i.e. one outcome of
`await ws.receive_json()` plus the subsequent field accesses:
`decodeError` — the payload is not valid JSON, so `receive_json` raises;
`notDict` — valid JSON but not an object, so `data.get` raises
`AttributeError`; `closed` — `WebSocketDisconnect`; `dict` — a JSON
object, with the five fields the endpoint reads (`None`/absent and
non-present keys both surface as `none`, matching `data.get`). -/
inductive InMsg where
  | decodeError
  | notDict
  | closed
  | dict (type_ : Option String) (message : Option String)
      (url filename mimetype : Option String)
deriving DecidableEq, Repr

/-- Python's `str.strip()` (no argument): drop leading and trailing
whitespace. -/
def pyStrip (s : String) : String :=
  ⟨((s.data.dropWhile Char.isWhitespace).reverse.dropWhile
      Char.isWhitespace).reverse⟩

/-- Session state of §4.3: `ACTIVE` while the `while True` loop keeps
reading, `TERMINATED` once an `except` branch has run `disconnect`. -/
inductive SessionState where
  | ACTIVE
  | TERMINATED
deriving DecidableEq, Repr

/-- One iteration of the `ws_endpoint` loop body for an already-joined
session, given the next inbound item.  `decodeError`, `notDict` and
`closed` all escape the `try`, landing in an `except` branch that calls
`manager.disconnect` and ends the session.  A `dict` is dispatched on
its `type` field: `chat` broadcasts unless the stripped text is empty,
`file` broadcasts the client-supplied metadata verbatim, and any other
`type` falls through the `if`/`elif` chain into the next iteration. -/
def handle_event (rooms : Registry) (room username : String) (ws : Nat)
    (msg : InMsg) (t : Nat) (fails : Nat → Bool) :
    Registry × List (Client × OutEvent) × SessionState :=
  match msg with
  | .decodeError =>
      let p := disconnect rooms room username ws t fails
      (p.1, p.2, .TERMINATED)
  | .notDict =>
      let p := disconnect rooms room username ws t fails
      (p.1, p.2, .TERMINATED)
  | .closed =>
      let p := disconnect rooms room username ws t fails
      (p.1, p.2, .TERMINATED)
  | .dict type_ message url filename mimetype =>
      if type_ = some "chat" then
        let text := pyStrip (message.getD "")
        if text = "" then (rooms, [], .ACTIVE)
        else
          let p := broadcast rooms room (.chat username text t) fails
          (p.1, p.2, .ACTIVE)
      else if type_ = some "file" then
        let p := broadcast rooms room (.file username url filename mimetype t) fails
        (p.1, p.2, .ACTIVE)
      else (rooms, [], .ACTIVE)

/-- The §4.1 invariant as a predicate on registries: every registered
room has at least one member. -/
def RoomsNonempty (rooms : Registry) : Prop :=
  ∀ p ∈ rooms, p.2 ≠ []

instance : DecidablePred RoomsNonempty := fun rooms =>
  inferInstanceAs (Decidable (∀ p ∈ rooms, p.2 ≠ []))

/-- Registry well-formedness: room names are pairwise distinct (always
true of a Python dict). -/
def WFKeys (rooms : Registry) : Prop :=
  (rooms.map Prod.fst).Nodup

instance : DecidablePred WFKeys := fun rooms =>
  inferInstanceAs (Decidable (rooms.map Prod.fst).Nodup)

/-! ### Registry lemmas -/

theorem lookupRoom_setRoom_self (rooms : Registry) (room : String)
    (v : List Client) : lookupRoom (setRoom rooms room v) room = some v := by
  induction rooms with
  | nil => simp [setRoom, lookupRoom]
  | cons p rest ih =>
      obtain ⟨k, w⟩ := p
      by_cases h : k = room
      · simp [setRoom, h, lookupRoom]
      · simp [setRoom, h, lookupRoom, ih]

theorem getClients_setRoom_self (rooms : Registry) (room : String)
    (v : List Client) : getClients (setRoom rooms room v) room = v := by
  simp [getClients, lookupRoom_setRoom_self]

theorem lookupRoom_eq_none_of_not_mem (rooms : Registry) (room : String)
    (h : room ∉ rooms.map Prod.fst) : lookupRoom rooms room = none := by
  induction rooms with
  | nil => simp [lookupRoom]
  | cons p rest ih =>
      obtain ⟨k, w⟩ := p
      simp only [List.map_cons, List.mem_cons] at h
      push_neg at h
      simp [lookupRoom, Ne.symm h.1, ih h.2]

theorem popRoom_of_lookup_none (rooms : Registry) (room : String)
    (h : lookupRoom rooms room = none) : popRoom rooms room = rooms := by
  induction rooms with
  | nil => simp [popRoom]
  | cons p rest ih =>
      obtain ⟨k, w⟩ := p
      by_cases hk : k = room
      · simp [lookupRoom, hk] at h
      · simp only [lookupRoom, if_neg hk] at h
        simp [popRoom, hk, ih h]

theorem lookupRoom_popRoom_self (rooms : Registry) (room : String)
    (hwf : WFKeys rooms) : lookupRoom (popRoom rooms room) room = none := by
  induction rooms with
  | nil => simp [popRoom, lookupRoom]
  | cons p rest ih =>
      obtain ⟨k, w⟩ := p
      simp only [WFKeys, List.map_cons, List.nodup_cons] at hwf
      by_cases hk : k = room
      · subst hk
        simp only [popRoom, if_pos rfl]
        exact lookupRoom_eq_none_of_not_mem rest k hwf.1
      · simp [popRoom, hk, lookupRoom, ih hwf.2]

theorem setRoom_self_of_lookup (rooms : Registry) (room : String)
    (v : List Client) (h : lookupRoom rooms room = some v) :
    setRoom rooms room v = rooms := by
  induction rooms with
  | nil => simp [lookupRoom] at h
  | cons p rest ih =>
      obtain ⟨k, w⟩ := p
      by_cases hk : k = room
      · simp only [lookupRoom, if_pos hk] at h
        simp [setRoom, hk, Option.some.inj h]
      · simp only [lookupRoom, if_neg hk] at h
        simp [setRoom, hk, ih h]

theorem mem_setRoom (p : String × List Client) (rooms : Registry)
    (room : String) (v : List Client) (h : p ∈ setRoom rooms room v) :
    p = (room, v) ∨ p ∈ rooms := by
  induction rooms with
  | nil => simp [setRoom] at h; simp [h]
  | cons q rest ih =>
      obtain ⟨k, w⟩ := q
      by_cases hk : k = room
      · simp only [setRoom, if_pos hk, List.mem_cons] at h
        rcases h with h | h
        · exact Or.inl h
        · exact Or.inr (List.mem_cons_of_mem _ h)
      · simp only [setRoom, if_neg hk, List.mem_cons] at h
        rcases h with h | h
        · exact Or.inr (by simp [h])
        · rcases ih h with h' | h'
          · exact Or.inl h'
          · exact Or.inr (List.mem_cons_of_mem _ h')

theorem mem_popRoom (p : String × List Client) (rooms : Registry)
    (room : String) (h : p ∈ popRoom rooms room) : p ∈ rooms := by
  induction rooms with
  | nil => simp [popRoom] at h
  | cons q rest ih =>
      obtain ⟨k, w⟩ := q
      by_cases hk : k = room
      · simp only [popRoom, if_pos hk] at h
        exact List.mem_cons_of_mem _ h
      · simp only [popRoom, if_neg hk, List.mem_cons] at h
        rcases h with h | h
        · simp [h]
        · exact List.mem_cons_of_mem _ (ih h)

/-! ### Broadcast lemmas -/

/-- When no send fails, `broadcast` leaves the registry untouched and
delivers the event to every member in order. -/
theorem broadcast_nofail (rooms : Registry) (room : String) (msg : OutEvent) :
    broadcast rooms room msg (fun _ => false)
      = (rooms, (getClients rooms room).map (fun c => (c, msg))) := by
  simp [broadcast]

/-- When every member's send fails, the room entry is overwritten with
the empty list — it is NOT removed from the registry. -/
theorem broadcast_allfail (rooms : Registry) (room : String) (msg : OutEvent)
    (fails : Nat → Bool) (hall : ∀ c ∈ getClients rooms room, fails c.ws = true)
    (hne : getClients rooms room ≠ []) :
    lookupRoom (broadcast rooms room msg fails).1 room = some [] := by
  have hdead : (getClients rooms room).filter (fun c => fails c.ws)
      = getClients rooms room := List.filter_eq_self.mpr hall
  have hsurv : (getClients rooms room).filter
      (fun c => !(getClients rooms room).contains c) = [] := by
    apply List.filter_eq_nil_iff.mpr
    intro c hc
    simpa using hc
  simp only [broadcast, hdead]
  rw [if_neg (by simpa [List.isEmpty_iff] using hne)]
  simp [hsurv, lookupRoom_setRoom_self]

/-- `connect` without send failures: the new client is appended to the
room's list, the roster (computed after the append) goes to every
member, then the join notice goes to every member. -/
theorem connect_nofail (rooms : Registry) (room username : String)
    (ws t : Nat) :
    connect rooms room username ws t (fun _ => false)
      = (setRoom rooms room (getClients rooms room ++ [Client.mk username ws]),
         (getClients rooms room ++ [Client.mk username ws]).map (fun c =>
           (c, OutEvent.userlist
             ((getClients rooms room ++ [Client.mk username ws]).map
               Client.username)))
         ++ (getClients rooms room ++ [Client.mk username ws]).map (fun c =>
           (c, OutEvent.system (username ++ " bergabung ke grup") t))) := by
  simp [connect, broadcast_userlist, broadcast_nofail, getClients_setRoom_self,
    getUsernames]

/-- Registry component of a failure-free `connect`. -/
theorem connect_nofail_fst (rooms : Registry) (room username : String)
    (ws t : Nat) :
    (connect rooms room username ws t (fun _ => false)).1
      = setRoom rooms room (getClients rooms room ++ [Client.mk username ws]) := by
  rw [connect_nofail]

/-- Deliveries of a failure-free `connect`: the roster then the join
notice, both computed from (and sent to) the post-join membership. -/
theorem connect_nofail_snd (rooms : Registry) (room username : String)
    (ws t : Nat) :
    (connect rooms room username ws t (fun _ => false)).2
      = (getClients (connect rooms room username ws t (fun _ => false)).1
          room).map (fun c => (c, OutEvent.userlist
            (getUsernames (connect rooms room username ws t (fun _ => false)).1
              room)))
        ++ (getClients (connect rooms room username ws t (fun _ => false)).1
          room).map (fun c =>
            (c, OutEvent.system (username ++ " bergabung ke grup") t)) := by
  rw [connect_nofail]
  simp [getClients_setRoom_self, getUsernames]

/-- Registry component of a failure-free `disconnect`: clients with the
departing channel are filtered out; the room is popped if none remain. -/
theorem disconnect_nofail_fst (rooms : Registry) (room username : String)
    (ws t : Nat) :
    (disconnect rooms room username ws t (fun _ => false)).1
      = if ((getClients rooms room).filter (fun c => c.ws ≠ ws)).isEmpty
        then popRoom rooms room
        else setRoom rooms room
          ((getClients rooms room).filter (fun c => c.ws ≠ ws)) := by
  simp [disconnect, broadcast_userlist, broadcast_nofail]

/-- Deliveries of a failure-free `disconnect`: the leave notice then the
roster, both computed from (and sent to) the post-leave membership. -/
theorem disconnect_nofail_snd (rooms : Registry) (room username : String)
    (ws t : Nat) :
    (disconnect rooms room username ws t (fun _ => false)).2
      = (getClients (disconnect rooms room username ws t (fun _ => false)).1
          room).map (fun c =>
            (c, OutEvent.system (username ++ " keluar dari grup") t))
        ++ (getClients (disconnect rooms room username ws t (fun _ => false)).1
          room).map (fun c => (c, OutEvent.userlist
            (getUsernames (disconnect rooms room username ws t (fun _ => false)).1
              room))) := by
  rw [disconnect_nofail_fst]
  simp [disconnect, broadcast_userlist, broadcast_nofail, getUsernames]

/-! ### Claims -/

/-- Claim C1, counterexample.  A broadcast in which the sole member's
send fails evicts that member but leaves the room mapped to the empty
list: the registry afterwards is `[("r", [])]`, an empty entry that the
claim says should have been removed. -/
theorem c1_counterexample :
    (broadcast [("r", [Client.mk "a" 0])] "r" (.system "x" 0)
        (fun _ => true)).1 = [("r", [])] := rfl

/-- Claim C1, amended.  Join and leave (with no send failures) preserve
the invariant that every registered room is non-empty, but broadcast
send-failure eviction does not: a broadcast in which every member of a
non-empty room fails leaves the room's entry present, mapped to `[]`,
instead of removing it. -/
theorem c1_nonempty_invariant (rooms : Registry) (room username : String)
    (ws t : Nat) (msg : OutEvent) (fails : Nat → Bool)
    (hne : RoomsNonempty rooms) :
    RoomsNonempty (connect rooms room username ws t (fun _ => false)).1 ∧
    RoomsNonempty (disconnect rooms room username ws t (fun _ => false)).1 ∧
    (getClients rooms room ≠ [] →
      (∀ c ∈ getClients rooms room, fails c.ws = true) →
      lookupRoom (broadcast rooms room msg fails).1 room = some []) := by
  refine ⟨?_, ?_, ?_⟩
  · rw [connect_nofail_fst]
    intro p hp
    rcases mem_setRoom p rooms room _ hp with h | h
    · subst h
      simp
    · exact hne p h
  · rw [disconnect_nofail_fst]
    by_cases hempty :
        ((getClients rooms room).filter (fun c => c.ws ≠ ws)).isEmpty
    · rw [if_pos hempty]
      intro p hp
      exact hne p (mem_popRoom p rooms room hp)
    · rw [if_neg hempty]
      intro p hp
      rcases mem_setRoom p rooms room _ hp with h | h
      · subst h
        intro hcontra
        apply hempty
        rw [List.isEmpty_iff]
        exact hcontra
      · exact hne p h
  · intro hcs hall
    exact broadcast_allfail rooms room msg fails hall hcs

/-- Claim C1, witness. -/
theorem c1_witness :
    RoomsNonempty ([("r", [Client.mk "a" 0])] : Registry) ∧
    (RoomsNonempty
        (connect [("r", [Client.mk "a" 0])] "r" "b" 1 0 (fun _ => false)).1 ∧
     RoomsNonempty
        (disconnect [("r", [Client.mk "a" 0])] "r" "b" 1 0 (fun _ => false)).1 ∧
     (getClients [("r", [Client.mk "a" 0])] "r" ≠ [] →
       (∀ c ∈ getClients [("r", [Client.mk "a" 0])] "r",
         (fun _ => true) c.ws = true) →
       lookupRoom (broadcast [("r", [Client.mk "a" 0])] "r" (.system "x" 0)
         (fun _ => true)).1 "r" = some [])) :=
  ⟨by decide, c1_nonempty_invariant [("r", [Client.mk "a" 0])] "r" "b" 1 0
    (.system "x" 0) (fun _ => true) (by decide)⟩

/-- Claim C2, counterexample.  An undecodable inbound payload makes
`receive_json` raise; the `except Exception` branch runs `disconnect`,
so the event is not discarded silently: the session is TERMINATED and a
leave notice plus roster are broadcast to the remaining member. -/
theorem c2_counterexample :
    handle_event [("r", [Client.mk "alice" 0, Client.mk "bob" 1])] "r" "bob" 1
        .decodeError 7 (fun _ => false)
      = ([("r", [Client.mk "alice" 0])],
         [(Client.mk "alice" 0, .system "bob keluar dari grup" 7),
          (Client.mk "alice" 0, .userlist ["alice"])],
         .TERMINATED) := rfl

/-- Claim C2, amended.  An inbound event that decodes to a JSON object
whose `type` is neither `chat` nor `file` is discarded silently (no
broadcast, registry unchanged) and the session remains ACTIVE; an
undecodable inbound event instead terminates the session. -/
theorem c2_unrecognized_silent (rooms : Registry) (room username : String)
    (ws : Nat) (type_ message url filename mimetype : Option String)
    (t : Nat) (fails : Nat → Bool)
    (hchat : type_ ≠ some "chat") (hfile : type_ ≠ some "file") :
    handle_event rooms room username ws
        (.dict type_ message url filename mimetype) t fails
      = (rooms, [], .ACTIVE) ∧
    (handle_event rooms room username ws .decodeError t fails).2.2
      = .TERMINATED := by
  constructor
  · simp [handle_event, hchat, hfile]
  · rfl

/-- Claim C2, witness. -/
theorem c2_witness :
    (some "ping" : Option String) ≠ some "chat" ∧
    (some "ping" : Option String) ≠ some "file" ∧
    (handle_event [("r", [Client.mk "a" 0])] "r" "a" 0
        (.dict (some "ping") none none none none) 3 (fun _ => false)
      = ([("r", [Client.mk "a" 0])], [], .ACTIVE) ∧
     (handle_event [("r", [Client.mk "a" 0])] "r" "a" 0 .decodeError 3
        (fun _ => false)).2.2 = .TERMINATED) :=
  ⟨by decide, by decide,
   c2_unrecognized_silent [("r", [Client.mk "a" 0])] "r" "a" 0 (some "ping")
     none none none none 3 (fun _ => false) (by decide) (by decide)⟩

/-- Claim C3, counterexample.  A leave for a connection already absent
from the room ("bob", channel 1, while only "alice" remains) keeps the
registry unchanged but re-broadcasts the "keluar dari grup" notice and
the roster to the remaining member — an observable effect the claim
says must not occur. -/
theorem c3_counterexample :
    disconnect [("r", [Client.mk "alice" 0])] "r" "bob" 1 5 (fun _ => false)
      = ([("r", [Client.mk "alice" 0])],
         [(Client.mk "alice" 0, .system "bob keluar dari grup" 5),
          (Client.mk "alice" 0, .userlist ["alice"])]) := rfl

/-- Claim C3, amended.  A second leave for an already-removed connection
leaves the registry state unchanged, but it is not free of observable
effects: the "left" system notice and the roster are broadcast again to
the room's remaining members. -/
theorem c3_second_leave (rooms : Registry) (room username : String)
    (ws t : Nat) (habs : ∀ c ∈ getClients rooms room, c.ws ≠ ws)
    (hne : lookupRoom rooms room ≠ some []) :
    (disconnect rooms room username ws t (fun _ => false)).1 = rooms ∧
    (disconnect rooms room username ws t (fun _ => false)).2
      = (getClients rooms room).map (fun c =>
          (c, OutEvent.system (username ++ " keluar dari grup") t))
        ++ (getClients rooms room).map (fun c =>
          (c, OutEvent.userlist (getUsernames rooms room))) := by
  have hfilter : (getClients rooms room).filter (fun c => c.ws ≠ ws)
      = getClients rooms room :=
    List.filter_eq_self.mpr (fun c hc => by simpa using habs c hc)
  have h1 : (disconnect rooms room username ws t (fun _ => false)).1
      = rooms := by
    rw [disconnect_nofail_fst, hfilter]
    cases hlook : lookupRoom rooms room with
    | none =>
        have hcs : getClients rooms room = [] := by simp [getClients, hlook]
        rw [hcs]
        simp [popRoom_of_lookup_none rooms room hlook]
    | some cs =>
        have hcs : getClients rooms room = cs := by simp [getClients, hlook]
        have hcsne : cs ≠ [] := fun h => hne (by rw [hlook, h])
        rw [hcs, if_neg (by simpa [List.isEmpty_iff] using hcsne)]
        exact setRoom_self_of_lookup rooms room cs hlook
  refine ⟨h1, ?_⟩
  rw [disconnect_nofail_snd, h1]

/-- Claim C3, witness. -/
theorem c3_witness :
    (∀ c ∈ getClients [("r", [Client.mk "alice" 0])] "r", c.ws ≠ 1) ∧
    lookupRoom [("r", [Client.mk "alice" 0])] "r" ≠ some [] ∧
    ((disconnect [("r", [Client.mk "alice" 0])] "r" "bob" 1 5
        (fun _ => false)).1 = [("r", [Client.mk "alice" 0])] ∧
     (disconnect [("r", [Client.mk "alice" 0])] "r" "bob" 1 5
        (fun _ => false)).2
       = (getClients [("r", [Client.mk "alice" 0])] "r").map (fun c =>
           (c, OutEvent.system ("bob" ++ " keluar dari grup") 5))
         ++ (getClients [("r", [Client.mk "alice" 0])] "r").map (fun c =>
           (c, OutEvent.userlist
             (getUsernames [("r", [Client.mk "alice" 0])] "r")))) :=
  ⟨by decide, by decide,
   c3_second_leave [("r", [Client.mk "alice" 0])] "r" "bob" 1 5
     (by decide) (by decide)⟩

/-- Claim C4, counterexample.  Broadcasting to a room whose single
member's send fails (N = 1, so N − 1 = 0) leaves the registry with the
entry `("solo", [])`: the room entry is not removed, contrary to the
claim's "room entry removed from the registry if N−1 = 0". -/
theorem c4_counterexample :
    (broadcast [("solo", [Client.mk "a" 0])] "solo" (.chat "a" "hi" 1)
        (fun _ => true)).1 = [("solo", [])] := rfl

/-- Claim C4, amended.  When exactly one member's send fails during a
broadcast, the event is delivered to all other members in order, the
failed member is evicted so the room's member list afterwards has size
N − 1 — but the room's registry entry persists (as `some (l1 ++ l2)`)
even when N − 1 = 0, instead of being removed.  (`broadcast` is a total
function: no error reaches the caller.) -/
theorem c4_single_send_failure (rooms : Registry) (room : String)
    (msg : OutEvent) (l1 l2 : List Client) (k : Client) (fails : Nat → Bool)
    (hcs : getClients rooms room = l1 ++ k :: l2)
    (hk : fails k.ws = true)
    (hothers : ∀ c ∈ l1 ++ l2, fails c.ws = false) :
    (broadcast rooms room msg fails).2 = (l1 ++ l2).map (fun c => (c, msg)) ∧
    lookupRoom (broadcast rooms room msg fails).1 room = some (l1 ++ l2) ∧
    (getClients (broadcast rooms room msg fails).1 room).length
      = (getClients rooms room).length - 1 := by
  have hknot : k ∉ l1 ++ l2 := by
    intro hmem
    have h := hothers k hmem
    rw [hk] at h
    simp at h
  have hf1 : l1.filter (fun c => fails c.ws) = [] :=
    List.filter_eq_nil_iff.mpr (fun c hc => by
      simp [hothers c (List.mem_append_left _ hc)])
  have hf2 : l2.filter (fun c => fails c.ws) = [] :=
    List.filter_eq_nil_iff.mpr (fun c hc => by
      simp [hothers c (List.mem_append_right _ hc)])
  have hdead : (getClients rooms room).filter (fun c => fails c.ws) = [k] := by
    rw [hcs]
    simp [List.filter_append, List.filter_cons, hk, hf1, hf2]
  have hl1 : l1.filter (fun c => !decide (c = k)) = l1 :=
    List.filter_eq_self.mpr (fun c hc => by
      have hck : c ≠ k := fun h => hknot (h ▸ List.mem_append_left _ hc)
      simp [hck])
  have hl2 : l2.filter (fun c => !decide (c = k)) = l2 :=
    List.filter_eq_self.mpr (fun c hc => by
      have hck : c ≠ k := fun h => hknot (h ▸ List.mem_append_right _ hc)
      simp [hck])
  have hsurv : (getClients rooms room).filter
      (fun c => !([k] : List Client).contains c) = l1 ++ l2 := by
    rw [hcs, List.filter_append, List.filter_cons]
    simp [hl1, hl2]
  have hsent : (getClients rooms room).filter (fun c => !fails c.ws)
      = l1 ++ l2 := by
    rw [hcs, List.filter_append, List.filter_cons]
    have g1 : l1.filter (fun c => !fails c.ws) = l1 :=
      List.filter_eq_self.mpr (fun c hc => by
        simp [hothers c (List.mem_append_left _ hc)])
    have g2 : l2.filter (fun c => !fails c.ws) = l2 :=
      List.filter_eq_self.mpr (fun c hc => by
        simp [hothers c (List.mem_append_right _ hc)])
    simp [g1, g2, hk]
  have hdne : ¬ ((getClients rooms room).filter
      (fun c => fails c.ws)).isEmpty = true := by
    rw [hdead]
    simp
  have hreg : (broadcast rooms room msg fails).1
      = setRoom rooms room (l1 ++ l2) := by
    simp only [broadcast, if_neg hdne]
    rw [hdead, hsurv]
  refine ⟨?_, ?_, ?_⟩
  · simp only [broadcast]
    rw [hsent]
  · rw [hreg, lookupRoom_setRoom_self]
  · rw [hreg, getClients_setRoom_self, hcs]
    simp [Nat.add_comm]

/-- Claim C4, witness: room of three members where exactly the middle
member's send (channel 1) fails. -/
theorem c4_witness :
    getClients [("w", [Client.mk "a" 0, Client.mk "b" 1, Client.mk "c" 2])] "w"
      = [Client.mk "a" 0] ++ Client.mk "b" 1 :: [Client.mk "c" 2] ∧
    (fun w => w == 1) (Client.mk "b" 1).ws = true ∧
    (∀ c ∈ [Client.mk "a" 0] ++ [Client.mk "c" 2],
      (fun w => w == 1) c.ws = false) ∧
    ((broadcast [("w", [Client.mk "a" 0, Client.mk "b" 1, Client.mk "c" 2])]
        "w" (.chat "a" "hi" 9) (fun w => w == 1)).2
      = ([Client.mk "a" 0] ++ [Client.mk "c" 2]).map
          (fun c => (c, OutEvent.chat "a" "hi" 9)) ∧
     lookupRoom (broadcast
        [("w", [Client.mk "a" 0, Client.mk "b" 1, Client.mk "c" 2])]
        "w" (.chat "a" "hi" 9) (fun w => w == 1)).1 "w"
       = some ([Client.mk "a" 0] ++ [Client.mk "c" 2]) ∧
     (getClients (broadcast
        [("w", [Client.mk "a" 0, Client.mk "b" 1, Client.mk "c" 2])]
        "w" (.chat "a" "hi" 9) (fun w => w == 1)).1 "w").length
       = (getClients
           [("w", [Client.mk "a" 0, Client.mk "b" 1, Client.mk "c" 2])]
           "w").length - 1) :=
  ⟨rfl, rfl, by decide,
   c4_single_send_failure
     [("w", [Client.mk "a" 0, Client.mk "b" 1, Client.mk "c" 2])] "w"
     (.chat "a" "hi" 9) [Client.mk "a" 0] [Client.mk "c" 2] (Client.mk "b" 1)
     (fun w => w == 1) rfl rfl (by decide)⟩

/-- Claim C5.  Under failure-free delivery, a join appends the new
connection at the end of the member list and a leave filters out exactly
the departing channel (preserving the order of the rest), and every
`userlist` event broadcast by the join or the leave carries exactly the
usernames of the post-change membership — never a stale snapshot. -/
theorem c5_roster_reflects_membership (rooms : Registry)
    (room username : String) (ws t : Nat) (hwf : WFKeys rooms) :
    getClients (connect rooms room username ws t (fun _ => false)).1 room
      = getClients rooms room ++ [Client.mk username ws] ∧
    (∀ p ∈ (connect rooms room username ws t (fun _ => false)).2, ∀ us,
      p.2 = OutEvent.userlist us →
      us = getUsernames (connect rooms room username ws t (fun _ => false)).1
             room) ∧
    getClients (disconnect rooms room username ws t (fun _ => false)).1 room
      = (getClients rooms room).filter (fun c => c.ws ≠ ws) ∧
    (∀ p ∈ (disconnect rooms room username ws t (fun _ => false)).2, ∀ us,
      p.2 = OutEvent.userlist us →
      us = getUsernames (disconnect rooms room username ws t (fun _ => false)).1
             room) := by
  refine ⟨?_, ?_, ?_, ?_⟩
  · rw [connect_nofail_fst, getClients_setRoom_self]
  · intro p hp us hus
    rw [connect_nofail_snd] at hp
    rcases List.mem_append.mp hp with hp | hp
    · obtain ⟨c, hc, rfl⟩ := List.mem_map.mp hp
      exact (OutEvent.userlist.inj hus).symm
    · obtain ⟨c, hc, rfl⟩ := List.mem_map.mp hp
      exact absurd hus (by simp)
  · rw [disconnect_nofail_fst]
    by_cases hempty :
        ((getClients rooms room).filter (fun c => c.ws ≠ ws)).isEmpty
    · rw [if_pos hempty, List.isEmpty_iff.mp hempty]
      simp [getClients, lookupRoom_popRoom_self rooms room hwf]
    · rw [if_neg hempty, getClients_setRoom_self]
  · intro p hp us hus
    rw [disconnect_nofail_snd] at hp
    rcases List.mem_append.mp hp with hp | hp
    · obtain ⟨c, hc, rfl⟩ := List.mem_map.mp hp
      exact absurd hus (by simp)
    · obtain ⟨c, hc, rfl⟩ := List.mem_map.mp hp
      exact (OutEvent.userlist.inj hus).symm

/-- Claim C5, witness. -/
theorem c5_witness :
    WFKeys ([("g", [Client.mk "alice" 0])] : Registry) ∧
    (getClients
        (connect [("g", [Client.mk "alice" 0])] "g" "bob" 1 2
          (fun _ => false)).1 "g"
      = getClients [("g", [Client.mk "alice" 0])] "g" ++ [Client.mk "bob" 1] ∧
     (∀ p ∈ (connect [("g", [Client.mk "alice" 0])] "g" "bob" 1 2
         (fun _ => false)).2, ∀ us,
       p.2 = OutEvent.userlist us →
       us = getUsernames
         (connect [("g", [Client.mk "alice" 0])] "g" "bob" 1 2
           (fun _ => false)).1 "g") ∧
     getClients
        (disconnect [("g", [Client.mk "alice" 0])] "g" "bob" 1 2
          (fun _ => false)).1 "g"
      = (getClients [("g", [Client.mk "alice" 0])] "g").filter
          (fun c => c.ws ≠ 1) ∧
     (∀ p ∈ (disconnect [("g", [Client.mk "alice" 0])] "g" "bob" 1 2
         (fun _ => false)).2, ∀ us,
       p.2 = OutEvent.userlist us →
       us = getUsernames
         (disconnect [("g", [Client.mk "alice" 0])] "g" "bob" 1 2
           (fun _ => false)).1 "g")) :=
  ⟨by decide,
   c5_roster_reflects_membership [("g", [Client.mk "alice" 0])] "g" "bob" 1 2
     (by decide)⟩

/-- Claim C6.  Joining a room name absent from the registry creates an
entry holding exactly the joining connection; the leave of a room's last
remaining member removes the entry, after which both the lookup and the
username snapshot report the room as non-existent/empty.  (Failure-free
delivery.) -/
theorem c6_create_and_remove (rooms : Registry) (room username : String)
    (ws t : Nat) (hwf : WFKeys rooms) :
    (lookupRoom rooms room = none →
      lookupRoom (connect rooms room username ws t (fun _ => false)).1 room
        = some [Client.mk username ws]) ∧
    (∀ c, lookupRoom rooms room = some [c] → c.ws = ws →
      lookupRoom (disconnect rooms room username ws t (fun _ => false)).1 room
        = none ∧
      getUsernames (disconnect rooms room username ws t (fun _ => false)).1
        room = []) := by
  constructor
  · intro hnone
    rw [connect_nofail_fst, lookupRoom_setRoom_self]
    simp [getClients, hnone]
  · intro c hc hcw
    have hfst : (disconnect rooms room username ws t (fun _ => false)).1
        = popRoom rooms room := by
      rw [disconnect_nofail_fst]
      have hone : getClients rooms room = [c] := by simp [getClients, hc]
      rw [hone]
      simp [hcw]
    have hlook := lookupRoom_popRoom_self rooms room hwf
    refine ⟨?_, ?_⟩
    · rw [hfst]
      exact hlook
    · rw [hfst]
      simp [getUsernames, getClients, hlook]

/-- Claim C6, witness. -/
theorem c6_witness :
    lookupRoom (connect [] "demo" "carol" 3 1 (fun _ => false)).1 "demo"
      = some [Client.mk "carol" 3] ∧
    lookupRoom (disconnect [("demo", [Client.mk "carol" 3])] "demo" "carol" 3 2
        (fun _ => false)).1 "demo" = none :=
  ⟨(c6_create_and_remove [] "demo" "carol" 3 1 (by decide)).1 rfl,
   ((c6_create_and_remove [("demo", [Client.mk "carol" 3])] "demo" "carol" 3 2
      (by decide)).2 (Client.mk "carol" 3) rfl rfl).1⟩

/-- Claim C7.  A `file` inbound event from a room member is broadcast
(failure-free delivery) to every current member — the sender included —
as a `file` outbound event whose `url`, `filename` and `mimetype` are
exactly the client-supplied values, stamped with the sender's username
and the server timestamp. -/
theorem c7_file_event_echo (rooms : Registry) (room username : String)
    (ws : Nat) (message url filename mimetype : Option String) (t : Nat)
    (hmem : Client.mk username ws ∈ getClients rooms room) :
    handle_event rooms room username ws
        (.dict (some "file") message url filename mimetype) t (fun _ => false)
      = (rooms,
         (getClients rooms room).map
           (fun c => (c, OutEvent.file username url filename mimetype t)),
         .ACTIVE) ∧
    (Client.mk username ws, OutEvent.file username url filename mimetype t)
      ∈ (handle_event rooms room username ws
          (.dict (some "file") message url filename mimetype) t
          (fun _ => false)).2.1 := by
  have h : handle_event rooms room username ws
      (.dict (some "file") message url filename mimetype) t (fun _ => false)
      = (rooms,
         (getClients rooms room).map
           (fun c => (c, OutEvent.file username url filename mimetype t)),
         .ACTIVE) := by
    simp [handle_event, broadcast_nofail,
      show (some "file" : Option String) ≠ some "chat" by decide]
  refine ⟨h, ?_⟩
  rw [h]
  exact List.mem_map_of_mem _ hmem

/-- Claim C7, witness. -/
theorem c7_witness :
    Client.mk "carol" 0
      ∈ getClients [("demo", [Client.mk "carol" 0, Client.mk "dave" 1])]
          "demo" ∧
    (handle_event [("demo", [Client.mk "carol" 0, Client.mk "dave" 1])] "demo"
        "carol" 0
        (.dict (some "file") none (some "/uploads/x.png") (some "x.png")
          (some "image/png")) 6 (fun _ => false)
      = ([("demo", [Client.mk "carol" 0, Client.mk "dave" 1])],
         (getClients [("demo", [Client.mk "carol" 0, Client.mk "dave" 1])]
           "demo").map (fun c => (c, OutEvent.file "carol"
             (some "/uploads/x.png") (some "x.png") (some "image/png") 6)),
         .ACTIVE) ∧
     (Client.mk "carol" 0, OutEvent.file "carol" (some "/uploads/x.png")
        (some "x.png") (some "image/png") 6)
       ∈ (handle_event [("demo", [Client.mk "carol" 0, Client.mk "dave" 1])]
           "demo" "carol" 0
           (.dict (some "file") none (some "/uploads/x.png") (some "x.png")
             (some "image/png")) 6 (fun _ => false)).2.1) :=
  ⟨by decide,
   c7_file_event_echo [("demo", [Client.mk "carol" 0, Client.mk "dave" 1])]
     "demo" "carol" 0 none (some "/uploads/x.png") (some "x.png")
     (some "image/png") 6 (by decide)⟩

/-- Claim C8.  A `chat` inbound event whose text strips to the empty
string (missing, `None`, empty or whitespace-only) hits the `continue`:
no broadcast of any kind, the registry is untouched, and the session
stays ACTIVE — for any send-failure behaviour, since no send happens. -/
theorem c8_blank_chat_ignored (rooms : Registry) (room username : String)
    (ws : Nat) (message url filename mimetype : Option String) (t : Nat)
    (fails : Nat → Bool) (hblank : pyStrip (message.getD "") = "") :
    handle_event rooms room username ws
        (.dict (some "chat") message url filename mimetype) t fails
      = (rooms, [], .ACTIVE) := by
  simp [handle_event, hblank]

/-- Claim C8, witness: a whitespace-only message. -/
theorem c8_witness :
    pyStrip ((some "   " : Option String).getD "") = "" ∧
    handle_event [("r", [Client.mk "a" 0])] "r" "a" 0
        (.dict (some "chat") (some "   ") none none none) 4 (fun _ => false)
      = ([("r", [Client.mk "a" 0])], [], .ACTIVE) :=
  ⟨by decide,
   c8_blank_chat_ignored [("r", [Client.mk "a" 0])] "r" "a" 0 (some "   ")
     none none none 4 (fun _ => false) (by decide)⟩

/-- Claim C9.  Removal identity is the channel handle, not the username:
if the room contains a client with username `u` on channel `w1`, a leave
for channel `w2 ≠ w1` (even under the same username `u`) removes exactly
the clients on channel `w2` and the client on `w1` remains a member.
(Failure-free delivery.) -/
theorem c9_removal_by_channel (rooms : Registry) (room u : String)
    (w1 w2 t : Nat) (h1 : Client.mk u w1 ∈ getClients rooms room)
    (hne : w1 ≠ w2) :
    getClients (disconnect rooms room u w2 t (fun _ => false)).1 room
      = (getClients rooms room).filter (fun c => c.ws ≠ w2) ∧
    Client.mk u w1
      ∈ getClients (disconnect rooms room u w2 t (fun _ => false)).1 room ∧
    (∀ c ∈ getClients (disconnect rooms room u w2 t (fun _ => false)).1 room,
      c.ws ≠ w2) := by
  have hmemf : Client.mk u w1
      ∈ (getClients rooms room).filter (fun c => c.ws ≠ w2) :=
    List.mem_filter.mpr ⟨h1, by simpa using hne⟩
  have hfst : getClients (disconnect rooms room u w2 t (fun _ => false)).1 room
      = (getClients rooms room).filter (fun c => c.ws ≠ w2) := by
    rw [disconnect_nofail_fst]
    rw [if_neg (by
      rw [List.isEmpty_iff]
      intro hcontra
      rw [hcontra] at hmemf
      simp at hmemf)]
    exact getClients_setRoom_self rooms room _
  refine ⟨hfst, ?_, ?_⟩
  · rw [hfst]
    exact hmemf
  · intro c hc
    rw [hfst] at hc
    have := (List.mem_filter.mp hc).2
    simpa using this

/-- Claim C9, witness: two connections sharing the username "pat". -/
theorem c9_witness :
    Client.mk "pat" 0
      ∈ getClients [("r", [Client.mk "pat" 0, Client.mk "pat" 1])] "r" ∧
    (0 : Nat) ≠ 1 ∧
    (getClients (disconnect [("r", [Client.mk "pat" 0, Client.mk "pat" 1])]
        "r" "pat" 1 8 (fun _ => false)).1 "r"
      = (getClients [("r", [Client.mk "pat" 0, Client.mk "pat" 1])]
          "r").filter (fun c => c.ws ≠ 1) ∧
     Client.mk "pat" 0
       ∈ getClients (disconnect [("r", [Client.mk "pat" 0, Client.mk "pat" 1])]
           "r" "pat" 1 8 (fun _ => false)).1 "r" ∧
     (∀ c ∈ getClients (disconnect
         [("r", [Client.mk "pat" 0, Client.mk "pat" 1])]
         "r" "pat" 1 8 (fun _ => false)).1 "r", c.ws ≠ 1)) :=
  ⟨by decide, by decide,
   c9_removal_by_channel [("r", [Client.mk "pat" 0, Client.mk "pat" 1])] "r"
     "pat" 0 1 8 (by decide) (by decide)⟩

/-- Claim C10.  A `file` inbound event missing `url`, `filename` or
`mimetype` keys is not rejected and raises no error: `data.get` yields
`None` for each missing key, and the event is still broadcast
(failure-free delivery) to the whole room with those fields null, the
sender's username and the server timestamp attached, the session
remaining ACTIVE. -/
theorem c10_file_missing_fields_null (rooms : Registry)
    (room username : String) (ws : Nat)
    (message url filename mimetype : Option String) (t : Nat)
    (_hmiss : url = none ∨ filename = none ∨ mimetype = none) :
    handle_event rooms room username ws
        (.dict (some "file") message url filename mimetype) t (fun _ => false)
      = (rooms,
         (getClients rooms room).map
           (fun c => (c, OutEvent.file username url filename mimetype t)),
         .ACTIVE) := by
  simp [handle_event, broadcast_nofail,
    show (some "file" : Option String) ≠ some "chat" by decide]

/-- Claim C10, witness: all three metadata keys absent. -/
theorem c10_witness :
    ((none : Option String) = none ∨ (none : Option String) = none ∨
      (none : Option String) = none) ∧
    handle_event [("r", [Client.mk "a" 0])] "r" "a" 0
        (.dict (some "file") none none none none) 4 (fun _ => false)
      = ([("r", [Client.mk "a" 0])],
         (getClients [("r", [Client.mk "a" 0])] "r").map
           (fun c => (c, OutEvent.file "a" none none none 4)),
         .ACTIVE) :=
  ⟨Or.inl rfl,
   c10_file_missing_fields_null [("r", [Client.mk "a" 0])] "r" "a" 0 none
     none none none 4 (Or.inl rfl)⟩

end CuppaChat
